import Mathlib

/-!
Shallow embedding of `PyLogDecorate/log.py` (call-logging decorators).

The file models the two components of the repository:

* the call interceptor `LogCallBase` / `LogCall` (function `wrapped_f`
  produced by `LogCallBase.hook`, lines 56-106 of `log.py`), and
* the instance binder `LogClass` (its `__call__` on lines 181-215 and the
  replacement constructor `_init` on lines 200-213).

Python values are modelled by the inductive `PyVal`, exceptions by `PyExc`,
policy dictionaries by association lists of `DVal`, and every fallible
Python expression by `Except PyExc`.
-/

/-- Model of a Python exception: runtime type name and message.  Two
exceptions are the same exception exactly when both fields agree. -/
structure PyExc where
  ty : String
  msg : String
deriving DecidableEq, Repr

/-- Model of a Python type object (the result of `type(obj)`). -/
inductive PyType where
  | intT
  | strT
  | instT
  | typeT
  | badT
deriving DecidableEq, Repr

/-- Rendering of a type object by `str`, as in `str(type(obj))`. -/
def typeRepr : PyType → String
  | PyType.intT => "<class \x27int\x27>"
  | PyType.strT => "<class \x27str\x27>"
  | PyType.instT => "<class \x27Instance\x27>"
  | PyType.typeT => "<class \x27type\x27>"
  | PyType.badT => "<class \x27BadStr\x27>"

/-- Model of a Python value as it flows through the interceptor:
integers, strings, object instances (carrying an optional bound logger
attribute, identified by its dotted name, and string attributes used by
the trace options), type objects, and a value whose `__str__` raises. -/
inductive PyVal where
  | int : Int → PyVal
  | str : String → PyVal
  | inst : Option String → List (String × String) → PyVal
  | typ : PyType → PyVal
  | badstr : PyVal
deriving DecidableEq, Repr

/-- Runtime type of a value, `type(obj)`. -/
def pyType : PyVal → PyType
  | PyVal.int _ => PyType.intT
  | PyVal.str _ => PyType.strT
  | PyVal.inst _ _ => PyType.instT
  | PyVal.typ _ => PyType.typeT
  | PyVal.badstr => PyType.badT

/-- Result of `str(obj)`: every constructor renders normally except
`badstr`, whose `__str__` raises. -/
def pyStrE : PyVal → Except Unit String
  | PyVal.int n => Except.ok (toString n)
  | PyVal.str s => Except.ok s
  | PyVal.inst _ _ => Except.ok "<Instance object>"
  | PyVal.typ t => Except.ok (typeRepr t)
  | PyVal.badstr => Except.error ()

/-- `inspect.isclass` applied to a type object.  Every Python type object
is a class, so on the image of `pyType` the test is constantly true
(this is the content of the classifier on line 63 of `log.py`). -/
def isclass (_ : PyType) : Bool := true

/-- `toStr` (lines 28-32): `str(obj)`, falling back to `str(type(obj))`
when `str(obj)` raises. -/
def toStr (obj : PyVal) : String :=
  match pyStrE obj with
  | Except.ok s => s
  | Except.error _ => typeRepr (pyType obj)

/-- `toShortStr` (lines 34-38): the display string of `obj`, replaced by
`toStr(type(obj))` when it is strictly longer than `m` characters. -/
def toShortStr (obj : PyVal) (m : Nat) : String :=
  let s := toStr obj
  if s.length > m then toStr (PyVal.typ (pyType obj)) else s

/-- `toShortStr` with its default maximum of 20 characters. -/
def toShortStrDefault (obj : PyVal) : String := toShortStr obj 20

/-- Model of a value stored in a policy dictionary. -/
inductive DVal where
  | bool : Bool → DVal
  | int : Int → DVal
  | str : String → DVal
deriving DecidableEq, Repr

/-- A policy dictionary (`args` of the decorators). -/
abbrev Dict := List (String × DVal)

/-- Lookup of a key in a dictionary. -/
def dictLookup (d : Dict) (key : String) : Option DVal :=
  match d with
  | [] => none
  | (k, v) :: rest => if k = key then some v else dictLookup rest key

/-- Python equality `v == True`: `True == True` and also `1 == True`. -/
def dvalEqTrue : DVal → Bool
  | DVal.bool b => b
  | DVal.int n => n == 1
  | DVal.str _ => false

/-- `keyIsTrue` (lines 13-20): false when the dictionary is falsy (`None`
or empty), otherwise true exactly when the key is present with a value
equal to `True`. -/
def keyIsTrue (dic : Option Dict) (key : String) : Bool :=
  match dic with
  | none => false
  | some d =>
    if d.isEmpty then false
    else
      match dictLookup d key with
      | some v => dvalEqTrue v
      | none => false

/-- `haskey` (lines 22-26): false when the dictionary is falsy, otherwise
presence of the key. -/
def haskey (dic : Option Dict) (key : String) : Bool :=
  match dic with
  | none => false
  | some d =>
    if d.isEmpty then false else (dictLookup d key).isSome

/-- Rendering of a dictionary value by `str`. -/
def dvalStr : DVal → String
  | DVal.bool b => if b then "True" else "False"
  | DVal.int n => toString n
  | DVal.str s => s

/-- Static identity of the original callable `fn` as used by `wrapped_f`:
its `__module__`, its `__name__`, and the name of its own runtime type
`fn.__class__.__name__` (which is "function" for a plain function). -/
structure FnInfo where
  module : String
  name : String
  clsName : String
deriving DecidableEq, Repr

/-- Caller frame captured by `sys._getframe(1)`: source file (the path
rendered by `os.path.relpath`) and line number. -/
structure Frame where
  file : String
  line : Nat
deriving DecidableEq, Repr

/-- Behaviour of the two guarded operations inside `wrapped_f` that do not
depend on the wrapped callable: whether `sys._getframe(1)` succeeds or
raises, and whether the formatting hook `self.log_f` raises (for
`LogCallBase` it is `pass` and never raises; for a subclass it may). -/
structure HookEnv where
  getframe : Except PyExc Frame
  logfExc : Option PyExc
deriving Repr

/-- Observable events of one invocation: the two paired trace emissions
(logger name, trace name, traced attribute value) and each invocation of
the formatting hook `self.log_f` with its arguments
(logger name, frame, function name, positional args, keyword args, result). -/
inductive LogRecord where
  | traceIn : String → String → String → LogRecord
  | traceOut : String → String → String → LogRecord
  | call : String → Frame → String → List PyVal → List (String × PyVal) → PyVal → LogRecord
deriving DecidableEq, Repr

/-- Predicate picking out formatting-hook invocations among the records. -/
def isCallRec : LogRecord → Bool
  | LogRecord.call _ _ _ _ _ _ => true
  | _ => false

/-- Outcome of invoking the wrapper: the value returned or the exception
raised, the records emitted in order, and the argument lists the original
callable was invoked with. -/
structure CallResult where
  returns : Except PyExc PyVal
  records : List LogRecord
  fnCalls : List (List PyVal)
deriving Repr

/-- The bound logger attribute of a value: only instances can carry one
(`hasattr(args[0], "logger")` on line 64). -/
def boundLogger : PyVal → Option String
  | PyVal.inst l _ => l
  | _ => none

/-- `str(getattr(instance, attr, ""))` as used by the trace emissions:
a missing attribute reads as the empty string. -/
def getattrStr : PyVal → String → String
  | PyVal.inst _ attrs, a =>
    match attrs.lookup a with
    | some s => s
    | none => ""
  | _, _ => ""

/-- The classifier on line 63: `args and inspect.isclass(type(args[0]))`. -/
def classfnCheck (args : List PyVal) : Bool :=
  match args with
  | [] => false
  | a :: _ => isclass (pyType a)

/-- Logger resolution of `wrapped_f` (lines 63-72): for a method call,
the first argument's bound logger when it has one, else a fresh logger
named `fn.__module__ + "." + fn.__class__.__name__`; for a non-method
call, a logger named after `fn.__module__` alone. -/
def resolveLogger (info : FnInfo) (args : List PyVal) : String :=
  match args with
  | a :: _ =>
    if isclass (pyType a) then
      match boundLogger a with
      | some l => l
      | none => info.module ++ "." ++ info.clsName
    else info.module
  | [] => info.module

/-- The dictionary value of a trace option rendered as a string. -/
def polStr (pol : Option Dict) (key : String) : String :=
  match pol with
  | some d =>
    match dictLookup d key with
    | some v => dvalStr v
    | none => ""
  | none => ""

/-- `trace_in` (lines 108-112): emits one record when both `tracename`
and `traceattr` are present in the policy, nothing otherwise. -/
def traceInRecs (pol : Option Dict) (logger : String) (inst0 : PyVal) : List LogRecord :=
  if haskey pol "tracename" && haskey pol "traceattr" then
    [LogRecord.traceIn logger (polStr pol "tracename") (getattrStr inst0 (polStr pol "traceattr"))]
  else []

/-- `trace_out` (lines 114-118): the matching leaving-trace emission. -/
def traceOutRecs (pol : Option Dict) (logger : String) (inst0 : PyVal) : List LogRecord :=
  if haskey pol "tracename" && haskey pol "traceattr" then
    [LogRecord.traceOut logger (polStr pol "tracename") (getattrStr inst0 (polStr pol "traceattr"))]
  else []

/-- One invocation of `wrapped_f` (lines 57-98) on positional arguments.

The first guarded region runs `trace_in`, the original callable and
`trace_out`; on an exception the result becomes the string "CRASHED" and
the exception is remembered in `err`.  The second region captures the
caller frame and calls `self.log_f`; its `except` clause runs
`del frame` (which raises `UnboundLocalError` when `sys._getframe`
itself failed, before `err = e` executes) and otherwise overwrites `err`
with the secondary exception; the `finally` clause re-raises `err` when
set (discarding any in-flight exception) and otherwise returns `result`
(likewise discarding any in-flight exception). -/
def wrappedF (pol : Option Dict) (info : FnInfo)
    (fn : List PyVal → Except PyExc PyVal)
    (env : HookEnv) (args : List PyVal) : CallResult :=
  let classfn := classfnCheck args
  let logger := resolveLogger info args
  let inRecs :=
    match args with
    | [] => []
    | a :: _ => if classfn then traceInRecs pol logger a else []
  let fnRes := fn args
  let result :=
    match fnRes with
    | Except.ok v => v
    | Except.error _ => PyVal.str "CRASHED"
  let err : Option PyExc :=
    match fnRes with
    | Except.ok _ => none
    | Except.error e => some e
  let outRecs :=
    match fnRes, args with
    | Except.ok _, a :: _ => if classfn then traceOutRecs pol logger a else []
    | _, _ => []
  match env.getframe with
  | Except.error _ =>
    { returns := match err with | some e => Except.error e | none => Except.ok result
      records := inRecs ++ outRecs
      fnCalls := [args] }
  | Except.ok frame =>
    match env.logfExc with
    | some e2 =>
      { returns := Except.error e2
        records := inRecs ++ outRecs ++ [LogRecord.call logger frame info.name args [] result]
        fnCalls := [args] }
    | none =>
      { returns := match err with | some e => Except.error e | none => Except.ok result
        records := inRecs ++ outRecs ++ [LogRecord.call logger frame info.name args [] result]
        fnCalls := [args] }

/-- The exception Python raises when a function declared `def wrapped_f(*args)`
is called with a keyword argument. -/
def kwTypeError : PyExc :=
  { ty := "TypeError", msg := "wrapped_f got an unexpected keyword argument" }

/-- Full call protocol of the wrapper: `wrapped_f` is declared with a
bare `*args` signature (line 57), so a call with any keyword argument
raises `TypeError` before the body runs. -/
def callWrapped (pol : Option Dict) (info : FnInfo)
    (fn : List PyVal → Except PyExc PyVal)
    (env : HookEnv) (args : List PyVal)
    (kwargs : List (String × PyVal)) : CallResult :=
  match kwargs with
  | [] => wrappedF pol info fn env args
  | _ :: _ => { returns := Except.error kwTypeError, records := [], fnCalls := [] }

/-- The message built by `LogCall.log_f` (lines 145-157): file, line,
function name, the arguments and the result rendered through
`toShortStr` with the default maximum, keyword arguments appended as
`k=v` pairs. -/
def logCallMessage (frame : Frame) (fname : String) (args : List PyVal)
    (kw : List (String × PyVal)) (result : PyVal) : String :=
  let arglist0 := String.intercalate ", " (args.map toShortStrDefault)
  let arglist :=
    if kw.isEmpty then arglist0
    else arglist0 ++ ", " ++
      String.intercalate ", " (kw.map (fun p => p.1 ++ "=" ++ toShortStrDefault p.2))
  frame.file ++ " " ++ toString frame.line ++ ": " ++ fname ++ "(" ++ arglist ++ ") -> "
    ++ toShortStrDefault result

/-- Model of a function object as seen by the instance binder: the
identity and behaviour of the underlying original callable, the
`__loghook__` marker (present exactly when the object is a wrapper
produced by `hook`, in which case `wrappedWith` carries the wrapping
decorator's `args`), and the `__subdecorate__` marker (carrying the
`args` of the decorator instance stored there by line 101). -/
structure FnObj where
  info : FnInfo
  core : List PyVal → Except PyExc PyVal
  wrappedWith : Option (Option Dict)
  subdec : Option (Option Dict)

/-- Presence of the `__loghook__` marker (line 104). -/
def FnObj.hasLoghook (f : FnObj) : Bool := f.wrappedWith.isSome

/-- `LogCallBase.hook` (lines 56-106) at the function-object level:
produces a fresh wrapper object around `f`, with `__loghook__` set and
with `__subdecorate__` set to the decorating instance exactly when its
`args` have a true `subdecorate` key. -/
def hookFn (polArgs : Option Dict) (f : FnObj) : FnObj :=
  { info := f.info
    core := f.core
    wrappedWith := some polArgs
    subdec := if keyIsTrue polArgs "subdecorate" then some polArgs else none }

/-- Invoking a function object: a wrapper routes through `wrappedF` with
the policy it was wrapped with; a plain function runs directly. -/
def invokeFn (f : FnObj) (env : HookEnv) (args : List PyVal) : CallResult :=
  match f.wrappedWith with
  | some pol => wrappedF pol f.info f.core env args
  | none => { returns := f.core args, records := [], fnCalls := [args] }

/-- Model of a class as the binder sees it: its module and name, the
members defined directly on it (`__dict__`), whether
`hasattr(klas, "__subdecorate__")` holds (the class-level propagation
marker, inherited lookups included), and the `args` recorded by a
previous `LogClass` application (`__loghook__.args`), when any. -/
structure Klass where
  module : String
  name : String
  dict : List (String × FnObj)
  hasSubdecorate : Bool
  loghookArgs : Option (Option Dict)

/-- Lookup of a member in a class `__dict__`. -/
def memberLookup (dict : List (String × FnObj)) (key : String) : Option FnObj :=
  match dict with
  | [] => none
  | (k, f) :: rest => if k = key then some f else memberLookup rest key

/-- `setattr(klas, key, f)`: replace the member if present, else add it. -/
def setMember (dict : List (String × FnObj)) (key : String) (f : FnObj) :
    List (String × FnObj) :=
  match dict with
  | [] => [(key, f)]
  | (k, g) :: rest =>
    if k = key then (key, f) :: rest else (k, g) :: setMember rest key f

/-- `getattr(klas, key)` for a key defined on the parent: the overriding
member defined directly on `klas` when there is one, else the inherited
member of the parent. -/
def klassGetattr (klas parent : Klass) (key : String) : Option FnObj :=
  match memberLookup klas.dict key with
  | some f => some f
  | none => memberLookup parent.dict key

/-- The member-rewrapping loop of `LogClass.__call__` (lines 193-198):
for each member of the parent `__dict__` carrying `__subdecorate__`,
when the attribute visible on `klas` is not yet wrapped, replace it on
`klas` by the result of re-applying the stored decorator's `hook`. -/
def scanMembers (parent : Klass) (entries : List (String × FnObj)) (klas : Klass) : Klass :=
  match entries with
  | [] => klas
  | (key, f) :: rest =>
    let klas1 :=
      match f.subdec with
      | some p =>
        match klassGetattr klas parent key with
        | some g =>
          if g.hasLoghook then klas
          else { klas with dict := setMember klas.dict key (hookFn p g) }
        | none => klas
      | none => klas
    scanMembers parent rest klas1

/-- Lines 193-198 guarded by `hasattr(parent, "__subdecorate__")`. -/
def subdecorateScan (parent klas : Klass) : Klass :=
  if parent.hasSubdecorate then scanMembers parent parent.dict klas else klas

/-- Argument inheritance of `LogClass.__call__` (lines 191-192): when the
parent carries `__loghook__` and `self.args` is falsy (`None` or the
empty dictionary), adopt the parent's recorded `args` wholesale. -/
def effectiveArgs (selfArgs : Option Dict) (parent : Klass) : Option Dict :=
  match parent.loghookArgs with
  | some pargs =>
    if selfArgs = none ∨ selfArgs = some [] then pargs else selfArgs
  | none => selfArgs

/-- The subscript expression `self.args["inherit_logger"]` on line 203:
raises `TypeError` when the policy is `None` and `KeyError` when the key
is absent. -/
def dictSubscript (args : Option Dict) (key : String) : Except PyExc DVal :=
  match args with
  | none => Except.error { ty := "TypeError", msg := "NoneType object is not subscriptable" }
  | some d =>
    match dictLookup d key with
    | some v => Except.ok v
    | none => Except.error { ty := "KeyError", msg := key }

/-- The call `keyIsTrue(x)` with a single positional argument on line
203: `keyIsTrue` is defined with two required parameters (line 13), so
Python raises `TypeError` before its body runs. -/
def keyIsTrueOneArg (_ : DVal) : Except PyExc Bool :=
  Except.error
    { ty := "TypeError"
      msg := "keyIsTrue missing 1 required positional argument: key" }

/-- The condition on lines 202-203 of `_init`, evaluated with Python
short-circuiting: when the instance has no truthy `logger` attribute the
first operand is true and the second is not evaluated; otherwise the
second operand evaluates `not keyIsTrue(self.args["inherit_logger"])`,
whose two sub-expressions may raise.  Returns whether `_init` sets a
fresh logger, or the exception the condition raises. -/
def initCond (args : Option Dict) (existing : Option String) : Except PyExc Bool :=
  match existing with
  | none => Except.ok true
  | some _ => do
    let v ← dictSubscript args "inherit_logger"
    let b ← keyIsTrueOneArg v
    pure (!b)

/-- One run of the replacement constructor `_init` (lines 200-208) on an
instance whose runtime class (`instance.__class__`, always the
most-derived class of the construction) has the given module and name
and whose `logger` attribute is `existing`.  Returns the name of the
logger bound after the run, or the exception raised.  The optional
`setLevel` on lines 207-208 does not affect the bound name and is not
tracked. -/
def initStep (args : Option Dict) (clsModule clsName : String)
    (existing : Option String) : Except PyExc String := do
  let fresh ← initCond args existing
  if fresh then pure (clsModule ++ "." ++ clsName)
  else
    match existing with
    | some l => pure l
    | none => pure (clsModule ++ "." ++ clsName)

/-- Construction of an instance of a decorated subclass `S` of a
decorated parent `P`, where the original `__init__` of `S` calls
`super().__init__()`: the replacement constructor installed on `S` runs
first on a fresh instance, then the replacement constructor installed on
`P` runs on the same instance, which by then carries the logger bound by
the first step.  `instance.__class__` is `S` in both steps. -/
def constructChain (argsS argsP : Option Dict) (clsModule clsName : String) :
    Except PyExc String := do
  let l1 ← initStep argsS clsModule clsName none
  let l2 ← initStep argsP clsModule clsName (some l1)
  pure l2

section Lemmas

/-- Helper: a formatting-hook record is never among the entering-trace
records. -/
theorem call_not_mem_traceInRecs (pol : Option Dict) (lg : String) (a : PyVal)
    (lg2 : String) (fr : Frame) (nm : String) (as2 : List PyVal)
    (kw : List (String × PyVal)) (res : PyVal) :
    LogRecord.call lg2 fr nm as2 kw res ∉ traceInRecs pol lg a := by
  unfold traceInRecs
  split <;> simp

/-- Helper: a formatting-hook record is never among the leaving-trace
records. -/
theorem call_not_mem_traceOutRecs (pol : Option Dict) (lg : String) (a : PyVal)
    (lg2 : String) (fr : Frame) (nm : String) (as2 : List PyVal)
    (kw : List (String × PyVal)) (res : PyVal) :
    LogRecord.call lg2 fr nm as2 kw res ∉ traceOutRecs pol lg a := by
  unfold traceOutRecs
  split <;> simp

/-- Helper: a leaving-trace record is never among the entering-trace
records. -/
theorem traceOut_not_mem_traceInRecs (pol : Option Dict) (lg : String) (a : PyVal)
    (lg2 t2 a2 : String) :
    LogRecord.traceOut lg2 t2 a2 ∉ traceInRecs pol lg a := by
  unfold traceInRecs
  split <;> simp

end Lemmas

/-- C6: a value whose display string is strictly longer than the
configured maximum is shown as its type name (the display string of its
type object); a value whose display string has length at most the
maximum is shown exactly. -/
theorem toShortStr_truncates (obj : PyVal) (m : Nat) :
    ((toStr obj).length > m → toShortStr obj m = toStr (PyVal.typ (pyType obj)))
    ∧ ((toStr obj).length ≤ m → toShortStr obj m = toStr obj) := by
  constructor <;> intro h <;> simp only [toShortStr]
  · simp [h]
  · simp [Nat.not_lt.mpr h]

/-- Witness for C6 at the default maximum 20: a 21-character string is
replaced by the display string of its type, and a 3-character string is
shown exactly. -/
theorem toShortStr_truncates_witness :
    ((toStr (PyVal.str "aaaaaaaaaaaaaaaaaaaaa")).length > 20
      ∧ toShortStr (PyVal.str "aaaaaaaaaaaaaaaaaaaaa") 20
          = toStr (PyVal.typ (pyType (PyVal.str "aaaaaaaaaaaaaaaaaaaaa"))))
    ∧ ((toStr (PyVal.str "abc")).length ≤ 20
      ∧ toShortStr (PyVal.str "abc") 20 = toStr (PyVal.str "abc")) :=
  ⟨⟨by decide, (toShortStr_truncates (PyVal.str "aaaaaaaaaaaaaaaaaaaaa") 20).1 (by decide)⟩,
   ⟨by decide, (toShortStr_truncates (PyVal.str "abc") 20).2 (by decide)⟩⟩

/-- C8: for an invocation classified as a method call, the bound logger
of the first argument is used when it has one; otherwise a fresh logger
named by the callable's defining module joined with the callable's own
runtime type name (`fn.__module__ + "." + fn.__class__.__name__`). -/
theorem method_logger_resolution (info : FnInfo) (a : PyVal) (rest : List PyVal) :
    (∀ l, boundLogger a = some l → resolveLogger info (a :: rest) = l)
    ∧ (boundLogger a = none →
        resolveLogger info (a :: rest) = info.module ++ "." ++ info.clsName) := by
  constructor
  · intro l hl
    simp [resolveLogger, isclass, hl]
  · intro hl
    simp [resolveLogger, isclass, hl]

/-- Witness for C8: an instance with bound logger "pkg.T" resolves to it;
an instance without one resolves to the module joined with the type name
of the callable. -/
theorem method_logger_resolution_witness :
    (boundLogger (PyVal.inst (some "pkg.T") []) = some "pkg.T"
      ∧ resolveLogger { module := "m", name := "f", clsName := "function" }
          [PyVal.inst (some "pkg.T") []] = "pkg.T")
    ∧ (boundLogger (PyVal.inst none []) = none
      ∧ resolveLogger { module := "m", name := "f", clsName := "function" }
          [PyVal.inst none []] = "m" ++ "." ++ "function") :=
  ⟨⟨rfl, (method_logger_resolution { module := "m", name := "f", clsName := "function" }
      (PyVal.inst (some "pkg.T") []) []).1 "pkg.T" rfl⟩,
   ⟨rfl, (method_logger_resolution { module := "m", name := "f", clsName := "function" }
      (PyVal.inst none []) []).2 rfl⟩⟩

/-- C9: the classifier `args and inspect.isclass(type(args[0]))` holds
for every invocation with at least one positional argument, because the
type of every value is a class; only the zero-argument invocation is
classified as a non-method call, and it uses the module-named logger. -/
theorem classfn_always_method (v : PyVal) (args : List PyVal) (info : FnInfo) :
    isclass (pyType v) = true
    ∧ classfnCheck (v :: args) = true
    ∧ classfnCheck [] = false
    ∧ resolveLogger info [] = info.module :=
  ⟨rfl, rfl, rfl, rfl⟩

section Lemmas

/-- Helper: every entering-trace record has the `traceIn` shape. -/
theorem traceInRecs_shape (pol : Option Dict) (lg : String) (a : PyVal)
    (r : LogRecord) (h : r ∈ traceInRecs pol lg a) :
    r = LogRecord.traceIn lg (polStr pol "tracename")
          (getattrStr a (polStr pol "traceattr")) := by
  unfold traceInRecs at h
  split at h <;> simp_all

/-- Helper: every leaving-trace record has the `traceOut` shape. -/
theorem traceOutRecs_shape (pol : Option Dict) (lg : String) (a : PyVal)
    (r : LogRecord) (h : r ∈ traceOutRecs pol lg a) :
    r = LogRecord.traceOut lg (polStr pol "tracename")
          (getattrStr a (polStr pol "traceattr")) := by
  unfold traceOutRecs at h
  split at h <;> simp_all

/-- Helper: every formatting-hook invocation recorded by one run of
`wrapped_f` received the empty keyword dictionary, the original
positional arguments, and the original result (or the sentinel when the
callable raised). -/
theorem wrappedF_call_record_shape (pol : Option Dict) (info : FnInfo)
    (fn : List PyVal → Except PyExc PyVal) (env : HookEnv) (args : List PyVal)
    (lg : String) (fr : Frame) (nm : String) (as2 : List PyVal)
    (kw : List (String × PyVal)) (res : PyVal)
    (h : LogRecord.call lg fr nm as2 kw res ∈ (wrappedF pol info fn env args).records) :
    kw = [] ∧ as2 = args
    ∧ res = (match fn args with
             | Except.ok v => v
             | Except.error _ => PyVal.str "CRASHED") := by
  unfold wrappedF at h
  cases hg : env.getframe with
  | error eg =>
    rw [hg] at h
    simp only [List.mem_append] at h
    rcases h with h | h
    · rcases args with _ | ⟨a, rest⟩
      · simp at h
      · simp only [] at h
        split at h
        · exact absurd (traceInRecs_shape _ _ _ _ h) (by simp)
        · simp at h
    · cases hfn : fn args with
      | error e1 =>
        rw [hfn] at h
        simp at h
      | ok v =>
        rw [hfn] at h
        rcases args with _ | ⟨a, rest⟩
        · simp at h
        · simp only [] at h
          split at h
          · exact absurd (traceOutRecs_shape _ _ _ _ h) (by simp)
          · simp at h
  | ok fr2 =>
    rw [hg] at h
    cases hl : env.logfExc <;> rw [hl] at h <;>
    · simp only [List.mem_append] at h
      rcases h with (h | h) | h
      · rcases args with _ | ⟨a, rest⟩
        · simp at h
        · simp only [] at h
          split at h
          · exact absurd (traceInRecs_shape _ _ _ _ h) (by simp)
          · simp at h
      · cases hfn : fn args with
        | error e1 =>
          rw [hfn] at h
          simp at h
        | ok v =>
          rw [hfn] at h
          rcases args with _ | ⟨a, rest⟩
          · simp at h
          · simp only [] at h
            split at h
            · exact absurd (traceOutRecs_shape _ _ _ _ h) (by simp)
            · simp at h
      · simp only [List.mem_singleton] at h
        cases h
        simp

end Lemmas

section Lemmas

/-- Helper: a leaving-trace record can only be emitted when the wrapped
callable returned normally. -/
theorem wrappedF_traceOut_needs_ok (pol : Option Dict) (info : FnInfo)
    (fn : List PyVal → Except PyExc PyVal) (env : HookEnv) (args : List PyVal)
    (lg t a2 : String)
    (h : LogRecord.traceOut lg t a2 ∈ (wrappedF pol info fn env args).records) :
    ∃ v, fn args = Except.ok v := by
  unfold wrappedF at h
  cases hg : env.getframe with
  | error eg =>
    rw [hg] at h
    simp only [List.mem_append] at h
    rcases h with h | h
    · rcases args with _ | ⟨a, rest⟩
      · simp at h
      · simp only [] at h
        split at h
        · exact absurd (traceInRecs_shape _ _ _ _ h) (by simp)
        · simp at h
    · cases hfn : fn args with
      | error e1 =>
        rw [hfn] at h
        simp at h
      | ok v => exact ⟨v, rfl⟩
  | ok fr2 =>
    rw [hg] at h
    cases hl : env.logfExc <;> rw [hl] at h <;>
    · simp only [List.mem_append] at h
      rcases h with (h | h) | h
      · rcases args with _ | ⟨a, rest⟩
        · simp at h
        · simp only [] at h
          split at h
          · exact absurd (traceInRecs_shape _ _ _ _ h) (by simp)
          · simp at h
      · cases hfn : fn args with
        | error e1 =>
          rw [hfn] at h
          simp at h
        | ok v => exact ⟨v, rfl⟩
      · simp at h

end Lemmas

/-- C1: when the formatting hook does not itself fail, invoking the
wrapper returns exactly the value the wrapped callable returns when it
does not raise, and raises exactly the wrapped callable's exception
(same type and message) when it raises.  This holds whether or not the
caller-frame capture succeeds. -/
theorem wrappedF_preserves_semantics (pol : Option Dict) (info : FnInfo)
    (fn : List PyVal → Except PyExc PyVal) (env : HookEnv) (args : List PyVal)
    (hlog : env.logfExc = none) :
    (∀ v, fn args = Except.ok v →
        (wrappedF pol info fn env args).returns = Except.ok v)
    ∧ (∀ e, fn args = Except.error e →
        (wrappedF pol info fn env args).returns = Except.error e) := by
  constructor
  · intro v hv
    unfold wrappedF
    cases hg : env.getframe <;> simp [hv, hlog, hg]
  · intro e he
    unfold wrappedF
    cases hg : env.getframe <;> simp [he, hlog, hg]

/-- Concrete scenario pieces: the function `compute(x, y)` of the spec,
returning `x + y` and raising `ValueError("bad")` when `y == 0`, and a
well-behaved environment (frame capture succeeds, formatting hook does
not raise). -/
def computeFn : List PyVal → Except PyExc PyVal := fun args =>
  match args with
  | [PyVal.int x, PyVal.int y] =>
    if y = 0 then Except.error { ty := "ValueError", msg := "bad" }
    else Except.ok (PyVal.int (x + y))
  | _ => Except.error { ty := "TypeError", msg := "compute takes two arguments" }

/-- Identity of `compute` as `wrapped_f` reads it. -/
def computeInfo : FnInfo := { module := "m", name := "compute", clsName := "function" }

/-- A well-behaved hook environment. -/
def okEnv : HookEnv :=
  { getframe := Except.ok { file := "caller.py", line := 10 }, logfExc := none }

/-- Witness for C1: `compute(3, 4)` returns 7 through the wrapper, and
`compute(1, 0)` raises `ValueError("bad")` through the wrapper. -/
theorem wrappedF_preserves_semantics_witness :
    okEnv.logfExc = none
    ∧ (wrappedF none computeInfo computeFn okEnv [PyVal.int 3, PyVal.int 4]).returns
        = Except.ok (PyVal.int 7)
    ∧ (wrappedF none computeInfo computeFn okEnv [PyVal.int 1, PyVal.int 0]).returns
        = Except.error { ty := "ValueError", msg := "bad" } :=
  ⟨rfl,
   (wrappedF_preserves_semantics none computeInfo computeFn okEnv
      [PyVal.int 3, PyVal.int 4] rfl).1 (PyVal.int 7) rfl,
   (wrappedF_preserves_semantics none computeInfo computeFn okEnv
      [PyVal.int 1, PyVal.int 0] rfl).2 { ty := "ValueError", msg := "bad" } rfl⟩

/-- C7: when the wrapped callable raises, the wrapper never returns
normally (the sentinel is never handed to the caller), every invocation
of the formatting hook receives the sentinel string "CRASHED" as the
result to format, no leaving-trace record is emitted, and when the
formatting hook does not itself fail the original exception is re-raised. -/
theorem crash_sentinel_not_returned (pol : Option Dict) (info : FnInfo)
    (fn : List PyVal → Except PyExc PyVal) (env : HookEnv) (args : List PyVal)
    (e : PyExc) (hf : fn args = Except.error e) :
    (∀ v, (wrappedF pol info fn env args).returns ≠ Except.ok v)
    ∧ (∀ lg fr nm as2 kw res,
        LogRecord.call lg fr nm as2 kw res ∈ (wrappedF pol info fn env args).records →
          res = PyVal.str "CRASHED")
    ∧ (∀ lg t a2,
        LogRecord.traceOut lg t a2 ∉ (wrappedF pol info fn env args).records)
    ∧ (env.logfExc = none →
        (wrappedF pol info fn env args).returns = Except.error e) := by
  refine ⟨?_, ?_, ?_, ?_⟩
  · intro v
    unfold wrappedF
    cases hg : env.getframe <;> cases hl : env.logfExc <;> simp [hf, hg, hl]
  · intro lg fr nm as2 kw res hmem
    have hshape := wrappedF_call_record_shape pol info fn env args lg fr nm as2 kw res hmem
    rw [hf] at hshape
    exact hshape.2.2
  · intro lg t a2 hmem
    obtain ⟨v, hv⟩ := wrappedF_traceOut_needs_ok pol info fn env args lg t a2 hmem
    rw [hf] at hv
    exact Except.noConfusion hv
  · intro hl
    exact (wrappedF_preserves_semantics pol info fn env args hl).2 e hf

/-- Witness for C7 on the concrete scenario `compute(1, 0)`: the call
raises, the wrapper re-raises `ValueError("bad")`, and the record shows
the crash sentinel. -/
theorem crash_sentinel_not_returned_witness :
    computeFn [PyVal.int 1, PyVal.int 0]
        = Except.error { ty := "ValueError", msg := "bad" }
    ∧ (wrappedF none computeInfo computeFn okEnv [PyVal.int 1, PyVal.int 0]).returns
        ≠ Except.ok (PyVal.int 0)
    ∧ (wrappedF none computeInfo computeFn okEnv [PyVal.int 1, PyVal.int 0]).returns
        = Except.error { ty := "ValueError", msg := "bad" } :=
  ⟨rfl,
   (crash_sentinel_not_returned none computeInfo computeFn okEnv
      [PyVal.int 1, PyVal.int 0] { ty := "ValueError", msg := "bad" } rfl).1 (PyVal.int 0),
   (crash_sentinel_not_returned none computeInfo computeFn okEnv
      [PyVal.int 1, PyVal.int 0] { ty := "ValueError", msg := "bad" } rfl).2.2.2 rfl⟩

/-- C10: the wrapper accepts positional arguments only: a call with any
keyword argument raises `TypeError` before the original callable runs,
and every invocation of the formatting hook receives the empty keyword
dictionary. -/
theorem wrapper_positional_only (pol : Option Dict) (info : FnInfo)
    (fn : List PyVal → Except PyExc PyVal) (env : HookEnv) (args : List PyVal)
    (kwargs : List (String × PyVal)) :
    (kwargs ≠ [] →
      (callWrapped pol info fn env args kwargs).returns = Except.error kwTypeError
      ∧ (callWrapped pol info fn env args kwargs).fnCalls = [])
    ∧ (∀ lg fr nm as2 kw res,
        LogRecord.call lg fr nm as2 kw res
            ∈ (callWrapped pol info fn env args kwargs).records →
          kw = []) := by
  constructor
  · intro hkw
    rcases kwargs with _ | ⟨p, ps⟩
    · exact absurd rfl hkw
    · exact ⟨rfl, rfl⟩
  · intro lg fr nm as2 kw res hmem
    rcases kwargs with _ | ⟨p, ps⟩
    · exact (wrappedF_call_record_shape pol info fn env args lg fr nm as2 kw res hmem).1
    · simp [callWrapped] at hmem

/-- Witness for C10: calling the wrapper around `compute` with the
keyword argument `y=0` raises `TypeError` and never runs `compute`. -/
theorem wrapper_positional_only_witness :
    ([("y", PyVal.int 0)] : List (String × PyVal)) ≠ []
    ∧ (callWrapped none computeInfo computeFn okEnv [PyVal.int 1]
        [("y", PyVal.int 0)]).returns = Except.error kwTypeError
    ∧ (callWrapped none computeInfo computeFn okEnv [PyVal.int 1]
        [("y", PyVal.int 0)]).fnCalls = [] :=
  ⟨by simp,
   ((wrapper_positional_only none computeInfo computeFn okEnv [PyVal.int 1]
      [("y", PyVal.int 0)]).1 (by simp)).1,
   ((wrapper_positional_only none computeInfo computeFn okEnv [PyVal.int 1]
      [("y", PyVal.int 0)]).1 (by simp)).2⟩

/-- The original exception of the C2 scenario, `ValueError("bad")`. -/
def cveBad : PyExc := { ty := "ValueError", msg := "bad" }

/-- The secondary exception raised by the formatting hook in the C2
scenario. -/
def cfmtBoom : PyExc := { ty := "RuntimeError", msg := "log_f failed" }

/-- A wrapped callable that always raises `ValueError("bad")`. -/
def cexFn : List PyVal → Except PyExc PyVal := fun _ => Except.error cveBad

/-- Identity of the callable of the C2 scenario. -/
def cexInfo : FnInfo := { module := "m", name := "f", clsName := "function" }

/-- An environment where the caller frame is captured but the formatting
hook raises. -/
def cexEnv : HookEnv :=
  { getframe := Except.ok { file := "caller.py", line := 10 }, logfExc := some cfmtBoom }

/-- C2 counterexample: when the wrapped callable raises
`ValueError("bad")` and the formatting hook then raises
`RuntimeError("log_f failed")`, the wrapper re-raises the formatting
exception, not the original one, because line 91 of `log.py`
(`err = e` in the inner `except` clause) overwrites the remembered
original exception.  The claim states the original is re-raised. -/
theorem logf_failure_masks_original_cex :
    (wrappedF none cexInfo cexFn cexEnv [PyVal.int 1]).returns = Except.error cfmtBoom
    ∧ (wrappedF none cexInfo cexFn cexEnv [PyVal.int 1]).returns ≠ Except.error cveBad := by
  constructor
  · rfl
  · intro hcontra
    rw [show (wrappedF none cexInfo cexFn cexEnv [PyVal.int 1]).returns
          = Except.error cfmtBoom from rfl] at hcontra
    exact absurd (Except.error.inj hcontra) (by decide)

/-- C2 (amended): a frame-capture failure never replaces the original
exception (when the wrapped callable raised, its exception is the one
re-raised, because `del frame` raises before `err = e` executes and the
`finally` clause re-raises the remembered original), and a frame-capture
failure alone is swallowed when the wrapped callable succeeded (the
`return` in `finally` discards it); a formatting-hook failure, however,
always becomes the re-raised error: it replaces the original exception
when the wrapped callable raised, and propagates when it succeeded. -/
theorem secondary_failure_precedence (pol : Option Dict) (info : FnInfo)
    (fn : List PyVal → Except PyExc PyVal) (env : HookEnv) (args : List PyVal) :
    (∀ e eg, fn args = Except.error e → env.getframe = Except.error eg →
        (wrappedF pol info fn env args).returns = Except.error e)
    ∧ (∀ v eg, fn args = Except.ok v → env.getframe = Except.error eg →
        (wrappedF pol info fn env args).returns = Except.ok v)
    ∧ (∀ e fr e2, fn args = Except.error e → env.getframe = Except.ok fr →
        env.logfExc = some e2 →
        (wrappedF pol info fn env args).returns = Except.error e2)
    ∧ (∀ v fr e2, fn args = Except.ok v → env.getframe = Except.ok fr →
        env.logfExc = some e2 →
        (wrappedF pol info fn env args).returns = Except.error e2) := by
  refine ⟨?_, ?_, ?_, ?_⟩
  · intro e eg hf hg
    unfold wrappedF
    simp [hf, hg]
  · intro v eg hf hg
    unfold wrappedF
    simp [hf, hg]
  · intro e fr e2 hf hg hl
    unfold wrappedF
    simp [hf, hg, hl]
  · intro v fr e2 hf hg hl
    unfold wrappedF
    simp [hf, hg, hl]

/-- An environment where `sys._getframe(1)` raises. -/
def badFrameEnv : HookEnv :=
  { getframe := Except.error { ty := "ValueError", msg := "call stack is not deep enough" }
    logfExc := none }

/-- Witness for the amended C2: with a failing frame capture the original
`ValueError("bad")` of `compute(1, 0)` survives, and with a failing
formatting hook the hook's exception is the one re-raised. -/
theorem secondary_failure_precedence_witness :
    computeFn [PyVal.int 1, PyVal.int 0] = Except.error cveBad
    ∧ (wrappedF none computeInfo computeFn badFrameEnv [PyVal.int 1, PyVal.int 0]).returns
        = Except.error cveBad
    ∧ (wrappedF none cexInfo cexFn cexEnv [PyVal.int 2]).returns = Except.error cfmtBoom :=
  ⟨rfl,
   (secondary_failure_precedence none computeInfo computeFn badFrameEnv
      [PyVal.int 1, PyVal.int 0]).1 cveBad
      { ty := "ValueError", msg := "call stack is not deep enough" } rfl rfl,
   (secondary_failure_precedence none cexInfo cexFn cexEnv [PyVal.int 2]).2.2.1 cveBad
      { file := "caller.py", line := 10 } cfmtBoom rfl rfl rfl⟩

/-- C4 (code defect at line 203): the condition of `_init` evaluates the
subscript `self.args["inherit_logger"]` instead of a guarded lookup, so
as soon as the instance already carries a truthy logger (as happens in
any chain of two decorated constructors), a policy without the
`inherit_logger` key raises `KeyError` and a `None` policy raises
`TypeError` — the claim says configuration lookups never raise. -/
theorem init_absent_inherit_logger_keyerror :
    initStep (some [("subdecorate", DVal.bool true)]) "m" "Sub" (some "m.Sub")
      = Except.error { ty := "KeyError", msg := "inherit_logger" }
    ∧ initStep none "m" "Sub" (some "m.Sub")
      = Except.error { ty := "TypeError", msg := "NoneType object is not subscriptable" }
    ∧ (∀ args : Option Dict, keyIsTrue args "inherit_logger" = true →
        ∃ d, args = some d ∧ dictLookup d "inherit_logger" ≠ none) := by
  refine ⟨rfl, rfl, ?_⟩
  intro args h
  cases args with
  | none => exact absurd h (by simp [keyIsTrue])
  | some d =>
    refine ⟨d, rfl, ?_⟩
    intro hnone
    rw [keyIsTrue, hnone] at h
    split at h <;> simp_all

/-- C3 (code defect at line 203): constructing an instance of a decorated
subclass of a decorated parent with `inherit_logger=true` on both never
completes: the second constructor in the chain sees the logger already
bound, evaluates `not keyIsTrue(self.args["inherit_logger"])`, and that
call passes a single positional argument to the two-parameter
`keyIsTrue`, raising `TypeError` — instead of leaving the existing
logger intact as the claim states. -/
theorem construct_chain_inherit_logger_crashes :
    constructChain (some [("inherit_logger", DVal.bool true)])
        (some [("inherit_logger", DVal.bool true)]) "m" "Sub"
      = Except.error
          { ty := "TypeError"
            msg := "keyIsTrue missing 1 required positional argument: key" }
    ∧ constructChain (some []) (some []) "m" "Sub"
      = Except.error { ty := "KeyError", msg := "inherit_logger" } :=
  ⟨rfl, rfl⟩

section Lemmas

/-- Helper: looking up the key just set finds the new member. -/
theorem memberLookup_setMember_self (dict : List (String × FnObj)) (key : String)
    (f : FnObj) : memberLookup (setMember dict key f) key = some f := by
  induction dict with
  | nil => simp [setMember, memberLookup]
  | cons kv rest ih =>
    obtain ⟨k, g⟩ := kv
    by_cases hk : k = key
    · simp [setMember, memberLookup, hk]
    · simp [setMember, memberLookup, hk, ih]

/-- Helper: setting one key leaves lookups of another key unchanged. -/
theorem memberLookup_setMember_ne (dict : List (String × FnObj)) (key key2 : String)
    (f : FnObj) (h : key ≠ key2) :
    memberLookup (setMember dict key f) key2 = memberLookup dict key2 := by
  induction dict with
  | nil => simp [setMember, memberLookup, h]
  | cons kv rest ih =>
    obtain ⟨k, g⟩ := kv
    by_cases hk : k = key
    · subst hk
      simp [setMember, memberLookup, h]
    · simp [setMember, memberLookup, hk, ih]

/-- Helper: the rewrapping loop over entries whose keys all differ from
`m` does not change the member stored at `m`. -/
theorem scanMembers_preserves (parent : Klass) (entries : List (String × FnObj))
    (klas : Klass) (m : String) (hm : ∀ kv ∈ entries, kv.1 ≠ m) :
    memberLookup (scanMembers parent entries klas).dict m = memberLookup klas.dict m := by
  induction entries generalizing klas with
  | nil => rfl
  | cons kv rest ih =>
    obtain ⟨key, f⟩ := kv
    have hkey : key ≠ m := hm (key, f) (List.mem_cons_self _ _)
    have hrest : ∀ kv ∈ rest, kv.1 ≠ m := fun kv h => hm kv (List.mem_cons_of_mem _ h)
    rw [scanMembers]
    cases hs : f.subdec with
    | none => simpa using ih klas hrest
    | some p =>
      cases hget : klassGetattr klas parent key with
      | none => simp only [hs, hget]; exact ih klas hrest
      | some g =>
        by_cases hl : g.hasLoghook
        · simp only [hs, hget, hl, if_true]
          exact ih klas hrest
        · simp only [hs, hget, hl, if_false, Bool.false_eq_true]
          rw [ih _ hrest]
          exact memberLookup_setMember_ne klas.dict key m (hookFn p g) hkey

/-- Helper: the rewrapping loop splits over list append. -/
theorem scanMembers_append (parent : Klass) (l1 l2 : List (String × FnObj))
    (klas : Klass) :
    scanMembers parent (l1 ++ l2) klas = scanMembers parent l2 (scanMembers parent l1 klas) := by
  induction l1 generalizing klas with
  | nil => rfl
  | cons kv rest ih =>
    obtain ⟨key, f⟩ := kv
    simp only [List.cons_append, scanMembers]
    exact ih _

/-- Helper: one step of the rewrapping loop on a propagatable member
whose visible attribute is not yet wrapped replaces it by the re-hooked
member. -/
theorem scanMembers_cons_step (parent : Klass) (key : String) (f : FnObj)
    (rest : List (String × FnObj)) (klas : Klass) (p : Option Dict) (g : FnObj)
    (hsub : f.subdec = some p)
    (hget : klassGetattr klas parent key = some g)
    (hunw : g.hasLoghook = false) :
    scanMembers parent ((key, f) :: rest) klas
      = scanMembers parent rest { klas with dict := setMember klas.dict key (hookFn p g) } := by
  rw [scanMembers]
  simp only [hsub, hget, hunw, Bool.false_eq_true, if_false]

end Lemmas

/-- C5: for a parent marked propagatable whose directly-defined member
`m` is a wrapper carrying the `__subdecorate__` marker with policy `p`,
and a subclass that overrides `m` with a not-yet-wrapped member `g`, the
rewrapping pass of `LogClass.__call__` replaces the override by
`hook(g)` re-applied with the ancestor policy `p`; the result carries
the `__loghook__` marker, and invoking it runs the interceptor, which
invokes the formatting hook (producing a log record) whenever the
caller frame is captured. -/
theorem subdecorate_rewraps_override
    (parent klas : Klass) (pre post : List (String × FnObj))
    (f g : FnObj) (p : Option Dict) (m : String)
    (hp : parent.hasSubdecorate = true)
    (hdict : parent.dict = pre ++ (m, f) :: post)
    (hpre : ∀ kv ∈ pre, kv.1 ≠ m)
    (hpost : ∀ kv ∈ post, kv.1 ≠ m)
    (hsub : f.subdec = some p)
    (hg : memberLookup klas.dict m = some g)
    (hunw : g.wrappedWith = none) :
    memberLookup (subdecorateScan parent klas).dict m = some (hookFn p g)
    ∧ (hookFn p g).hasLoghook = true
    ∧ (∀ env args fr, env.getframe = Except.ok fr →
        (invokeFn (hookFn p g) env args).records.any isCallRec = true) := by
  refine ⟨?_, rfl, ?_⟩
  · have hk1 : memberLookup (scanMembers parent pre klas).dict m = some g := by
      rw [scanMembers_preserves parent pre klas m hpre]
      exact hg
    have hget : klassGetattr (scanMembers parent pre klas) parent m = some g := by
      unfold klassGetattr
      rw [hk1]
    have hloghook : g.hasLoghook = false := by
      simp [FnObj.hasLoghook, hunw]
    unfold subdecorateScan
    rw [hp, if_pos rfl, hdict, scanMembers_append,
        scanMembers_cons_step parent m f post (scanMembers parent pre klas) p g hsub hget hloghook,
        scanMembers_preserves parent post _ m hpost]
    exact memberLookup_setMember_self (scanMembers parent pre klas).dict m (hookFn p g)
  · intro env args fr hgf
    simp only [invokeFn, hookFn]
    unfold wrappedF
    rw [hgf]
    cases hl : env.logfExc <;> simp [isCallRec]

/-- The ancestor interception policy of the C5 scenario, with
`subdecorate=true`. -/
def c5pol : Option Dict := some [("subdecorate", DVal.bool true)]

/-- The wrapped-and-propagatable member `m` defined on the ancestor. -/
def c5f : FnObj :=
  { info := { module := "mod", name := "m", clsName := "function" }
    core := fun _ => Except.ok (PyVal.int 1)
    wrappedWith := some c5pol
    subdec := some c5pol }

/-- The not-yet-wrapped override of `m` defined on the subclass. -/
def c5g : FnObj :=
  { info := { module := "mod", name := "m", clsName := "function" }
    core := fun _ => Except.ok (PyVal.int 2)
    wrappedWith := none
    subdec := none }

/-- The decorated ancestor type of the C5 scenario. -/
def c5parent : Klass :=
  { module := "mod", name := "T", dict := [("m", c5f)], hasSubdecorate := true
    loghookArgs := some c5pol }

/-- The decorated subclass of the C5 scenario, overriding `m`. -/
def c5sub : Klass :=
  { module := "mod", name := "S", dict := [("m", c5g)], hasSubdecorate := true
    loghookArgs := none }

/-- Witness for C5: in the concrete two-class scenario the override of
`m` ends up wrapped with the ancestor policy, and invoking it emits a
formatting-hook record. -/
theorem subdecorate_rewraps_override_witness :
    c5parent.hasSubdecorate = true
    ∧ c5f.subdec = some c5pol
    ∧ c5g.wrappedWith = none
    ∧ memberLookup (subdecorateScan c5parent c5sub).dict "m" = some (hookFn c5pol c5g)
    ∧ (invokeFn (hookFn c5pol c5g) okEnv [PyVal.inst (some "mod.S") []]).records.any isCallRec
        = true :=
  ⟨rfl, rfl, rfl,
   (subdecorate_rewraps_override c5parent c5sub [] [] c5f c5g c5pol "m" rfl rfl
      (by simp) (by simp) rfl rfl rfl).1,
   (subdecorate_rewraps_override c5parent c5sub [] [] c5f c5g c5pol "m" rfl rfl
      (by simp) (by simp) rfl rfl rfl).2.2 okEnv [PyVal.inst (some "mod.S") []]
      { file := "caller.py", line := 10 } rfl⟩
